import Mathlib

/-!
# FrameShare: shallow embedding of the scoring/turn-state engine

This file embeds, in Lean 4, the pure core of a shared bowling-scorecard
application:

* the frame builder (`processRollsIntoPlayers` in `src/lib/useRealtimeRolls.ts`,
  with its helpers `getNextRoll` and `getNextTwoRolls`),
* the realtime reconciliation merge (the `postgres_changes` handler of
  `useRealtimeRolls`),
* the legal-pins calculator (`getMaxPinsForSelection` in the game page),
* the turn sequencer (`advanceTurn` in the game page), and
* the reset handlers (`handleResetFrame` / `handleResetPlayer`, together with
  the scoped deletes `resetFrame` / `resetPlayer` of `src/lib/bowling.ts`).

Machine numbers of the source (JS numbers holding small integers) are embedded
as `Nat` where the source only ever computes non-negative values, and as `Int`
where the source can produce negative intermediate values (the `10 - pins`
ceilings).  Database identifiers are embedded as `Nat`; only equality of
identifiers is ever used by the code.
-/

/-- A persisted roll record (`Roll` in `src/lib/bowling.ts`).  The database
stores `frame` 1-10 and `roll` 1-3, but nothing in the code enforces this on
the way in, so both are embedded as unconstrained `Int`. -/
structure Roll where
  id : Nat
  game_id : Nat
  player_id : Nat
  frame : Int
  roll : Int
  pins : Nat
deriving DecidableEq, Repr

/-- A player record (`Player` in `src/lib/bowling.ts`), reduced to the fields
the engine reads. -/
structure Player where
  id : Nat
  game_id : Nat
  display_name : String
deriving DecidableEq, Repr

/-- One roll as stored inside a derived frame: `{ rollNumber, pins }` in
`FrameData.rolls` of `src/lib/useRealtimeRolls.ts`.  `rollNumber` is the
0-indexed `roll.roll - 1` and may be any integer for malformed input. -/
structure RollEntry where
  rollNumber : Int
  pins : Nat
deriving DecidableEq, Repr

/-- A derived frame (`FrameData` in `src/lib/useRealtimeRolls.ts`). -/
structure FrameData where
  frameNumber : Nat
  rolls : List RollEntry
  frameTotal : Nat
  runningTotal : Nat
deriving DecidableEq, Repr

/-- A player together with its derived frames (`PlayerWithFrames`). -/
structure PlayerWithFrames where
  id : Nat
  game_id : Nat
  display_name : String
  frames : List FrameData
  total : Nat
deriving DecidableEq, Repr

/-- Stable insertion (by `rollNumber`) used to model the JavaScript
`sort((a, b) => a.rollNumber - b.rollNumber)`: an element is placed after
every element with a strictly smaller key and before every element with an
equal or larger key, which matches the stable sort mandated by ES2019. -/
def insertByRoll (e : RollEntry) : List RollEntry → List RollEntry
  | [] => [e]
  | x :: xs => if e.rollNumber ≤ x.rollNumber then e :: x :: xs else x :: insertByRoll e xs

/-- Stable sort by `rollNumber`. -/
def sortByRoll (l : List RollEntry) : List RollEntry :=
  l.foldr insertByRoll []

/-- The bucket of derived roll entries for frame index `i` (0-indexed) of one
player: `processRollsIntoPlayers` filters the player's rolls, drops every roll
whose `frame - 1` is not a valid index into the 10-element `frames` array, and
ends up with each bucket sorted by `rollNumber` (the rolls are pushed in
`(frame, roll)`-sorted order and re-sorted by `rollNumber` before scoring). -/
def frameBucket (rolls : List Roll) (pid : Nat) (i : Nat) : List RollEntry :=
  sortByRoll
    ((rolls.filter (fun r => r.player_id == pid && r.frame == Int.ofNat i + 1)).map
      (fun r => ⟨r.roll - 1, r.pins⟩))

/-- The pins of frame `i`'s bucket, in sorted roll order. -/
def pinsListAt (rolls : List Roll) (pid : Nat) (i : Nat) : List Nat :=
  (frameBucket rolls pid i).map (·.pins)

/-- `getNextRoll` / `getNextTwoRolls` of `src/lib/useRealtimeRolls.ts`: the sum
of the first `k` rolls found scanning frames `i+1 … 9` in order (each frame's
rolls in sorted roll order); rolls that do not exist contribute nothing. -/
def lookahead (rolls : List Roll) (pid : Nat) (i : Nat) (k : Nat) : Nat :=
  (((((List.range 10).drop (i + 1)).map (pinsListAt rolls pid)).flatten).take k).sum

/-- The frame total computed by `processRollsIntoPlayers` for frame index `i`:
an empty frame scores 0; frame 9 sums its first three recorded rolls (all
three only when a strike or spare opens the frame); frames 0-8 use the
strike/spare lookahead. -/
def frameTotal (rolls : List Roll) (pid : Nat) (i : Nat) : Nat :=
  let ps := pinsListAt rolls pid i
  if ps = [] then 0
  else
    let r1 := ps.getD 0 0
    let r2 := ps.getD 1 0
    let r3 := ps.getD 2 0
    if i = 9 then
      if r1 = 10 then r1 + r2 + r3
      else if r1 + r2 = 10 then r1 + r2 + r3
      else r1 + r2
    else
      if r1 = 10 then 10 + lookahead rolls pid i 2
      else if r1 + r2 = 10 then 10 + lookahead rolls pid i 1
      else r1 + r2

/-- The running total after frame `i`: empty frames contribute 0, so this is
the sum of the frame totals of frames `0 … i`. -/
def runningTotalUpTo (rolls : List Roll) (pid : Nat) (i : Nat) : Nat :=
  ((List.range (i + 1)).map (frameTotal rolls pid)).sum

/-- The 10 derived frames `processRollsIntoPlayers` builds for one player. -/
def buildFrames (rolls : List Roll) (pid : Nat) : List FrameData :=
  (List.range 10).map (fun i =>
    ⟨i, frameBucket rolls pid i, frameTotal rolls pid i, runningTotalUpTo rolls pid i⟩)

/-- The player's final total (the running total after frame 9). -/
def playerTotal (rolls : List Roll) (pid : Nat) : Nat :=
  runningTotalUpTo rolls pid 9

/-- `processRollsIntoPlayers` of `src/lib/useRealtimeRolls.ts`. -/
def processRollsIntoPlayers (players : List Player) (rolls : List Roll) :
    List PlayerWithFrames :=
  players.map (fun p =>
    ⟨p.id, p.game_id, p.display_name, buildFrames rolls p.id, playerTotal rolls p.id⟩)

/-! ## Roll reconciliation (the realtime `postgres_changes` handler) -/

/-- One change-feed event on the `rolls` table.  `delete` carries the old
record (`payload.old`), of which only the id is consulted. -/
inductive RollEvent where
  | insert (r : Roll)
  | update (r : Roll)
  | delete (r : Roll)
deriving DecidableEq, Repr

/-- The merge performed by the rolls subscription handler in
`useRealtimeRolls`: INSERT appends `payload.new`; UPDATE overwrites the first
record with a matching id (`findIndex` + index assignment) or appends when the
id is unknown; DELETE removes every record with the deleted id. -/
def applyRollEvent (rollsData : List Roll) (ev : RollEvent) : List Roll :=
  match ev with
  | .insert r => rollsData ++ [r]
  | .update r =>
    match rollsData.findIdx? (fun x => x.id == r.id) with
    | some i => rollsData.set i r
    | none => rollsData ++ [r]
  | .delete r => rollsData.filter (fun x => x.id != r.id)

/-! ## Active selection, legal-pins calculator and turn sequencer
(the game page, `src/unnamed/part_004`) -/

/-- The transient active selection (`SelectedCell`). -/
structure SelectedCell where
  playerId : Nat
  frameIndex : Nat
  rollNumber : Nat
deriving DecidableEq, Repr

/-- `getMaxPinsForSelection` of the game page: the legal-pins ceiling for the
currently selected slot, computed from the selected player's derived frames.
The result is an `Int` because the source computes `10 - pins` without
clamping. -/
def getMaxPinsForSelection (players : List PlayerWithFrames)
    (selectedCell : Option SelectedCell) : Int :=
  match selectedCell with
  | none => 10
  | some sel =>
    match players.find? (fun p => p.id == sel.playerId) with
    | none => 10
    | some player =>
      let frame? := player.frames.get? sel.frameIndex
      if sel.rollNumber = 0 then 10
      else if sel.frameIndex < 9 ∧ sel.rollNumber = 1 then
        match frame? with
        | none => 10
        | some frame =>
          if frame.rolls.length = 0 then 10
          else
            match frame.rolls.find? (fun r => r.rollNumber == 0) with
            | some roll1 => 10 - (roll1.pins : Int)
            | none => 10
      else if sel.frameIndex = 9 then
        let rolls := (frame?.map (·.rolls)).getD []
        let roll1? := rolls.find? (fun r => r.rollNumber == 0)
        let roll2? := rolls.find? (fun r => r.rollNumber == 1)
        if sel.rollNumber = 1 then
          match roll1? with
          | none => 10
          | some roll1 => if roll1.pins = 10 then 10 else 10 - (roll1.pins : Int)
        else if sel.rollNumber = 2 then
          match roll2? with
          | none => 10
          | some roll2 =>
            if roll2.pins = 10 then 10
            else
              match roll1? with
              | some roll1 =>
                if roll1.pins + roll2.pins = 10 ∧ roll1.pins ≠ 10 then 10
                else if roll1.pins = 10 ∧ roll2.pins < 10 then 10 - (roll2.pins : Int)
                else 10
              | none => 10
        else 10
      else 10

/-- The tail of `advanceTurn`: `setSelectedCell` with the player found at
`idx`, or `setSelectedCell(null)` when `players[idx]` is undefined. -/
def setSelection (players : List PlayerWithFrames) (idx fi rn : Nat) :
    Option SelectedCell :=
  match players.get? idx with
  | some p => some ⟨p.id, fi, rn⟩
  | none => none

/-- The frame-10 turn-ended path of `advanceTurn`: advance modulo the player
count; on the wrap past the last player the selection is cleared (`Idle`). -/
def endTurnFrame9 (players : List PlayerWithFrames) (pIndex frameIndex : Nat) :
    Option SelectedCell :=
  let nextPlayerIndex := (pIndex + 1) % players.length
  if nextPlayerIndex = 0 ∧ pIndex = players.length - 1 then none
  else setSelection players nextPlayerIndex frameIndex 0

/-- The read `advanceTurn` performs in its frame-9, roll-index-1 case:
`players[pIndex].frames[9].rolls.find(r => r.rollNumber === 0)?.pins || 0`,
i.e. the recorded first roll of the player's 10th frame taken from the
(possibly stale) cached derived `players` state, 0 when absent. -/
def cachedFrame9Roll0 (players : List PlayerWithFrames) (pIndex : Nat) : Nat :=
  ((((players.get? pIndex).bind (fun p => p.frames.get? 9)).map
    (fun fr => ((fr.rolls.find? (fun r => r.rollNumber == 0)).map
      (·.pins)).getD 0)).getD 0)

/-- `advanceTurn` of the game page, as the function from the committed roll
`(playerId, frameIndex, rollNumber, pins)` and the current client state (the
derived `players` array and the previous selection) to the next selection.
When the player id is not found the source returns without touching the
selection.  In the frame-9, roll-index-1 case the source reads the recorded
first roll of the player's 10th frame back out of the (possibly stale)
derived `players` state (`cachedFrame9Roll0`). -/
def advanceTurn (players : List PlayerWithFrames)
    (playerId frameIndex rollNumber pins : Nat)
    (selectedCell : Option SelectedCell) : Option SelectedCell :=
  match players.findIdx? (fun p => p.id == playerId) with
  | none => selectedCell
  | some pIndex =>
    if frameIndex < 9 then
      if (rollNumber = 0 ∧ pins = 10) ∨ rollNumber + 1 > 1 then
        let nextPlayerIndex := (pIndex + 1) % players.length
        let nextFrameIndex :=
          if nextPlayerIndex = 0 ∧ pIndex = players.length - 1 then frameIndex + 1
          else frameIndex
        setSelection players nextPlayerIndex nextFrameIndex 0
      else setSelection players pIndex frameIndex (rollNumber + 1)
    else
      if rollNumber = 0 then setSelection players pIndex frameIndex 1
      else if rollNumber = 1 then
        let roll0 := cachedFrame9Roll0 players pIndex
        if roll0 = 10 ∨ roll0 + pins = 10 then
          setSelection players pIndex frameIndex 2
        else endTurnFrame9 players pIndex frameIndex
      else if rollNumber = 2 then endTurnFrame9 players pIndex frameIndex
      else setSelection players pIndex frameIndex (rollNumber + 1)

/-! ## Reset handlers (`handleResetFrame` / `handleResetPlayer` of the game
page, over the scoped deletes of `src/lib/bowling.ts`) -/

/-- The client state the reset handlers touch: the persisted rolls table (for
this game), the locally reconciled copy, and the active selection. -/
structure ClientState where
  store : List Roll
  localRolls : List Roll
  selectedCell : Option SelectedCell
deriving DecidableEq, Repr

/-- `resetFrame` of `src/lib/bowling.ts`: delete every roll of the given game,
player and 1-indexed frame from the store. -/
def resetFrameDelete (store : List Roll) (gameId playerId : Nat) (frame : Int) :
    List Roll :=
  store.filter (fun r =>
    !(r.game_id == gameId && r.player_id == playerId && r.frame == frame))

/-- `resetPlayer` of `src/lib/bowling.ts`: delete every roll of the given game
and player from the store. -/
def resetPlayerDelete (store : List Roll) (gameId playerId : Nat) : List Roll :=
  store.filter (fun r => !(r.game_id == gameId && r.player_id == playerId))

/-- `handleResetFrame` of the game page.  `deleteFails` models the awaited
scoped delete throwing: the handler's `catch` block then reports the error and
returns, so neither the refetch nor `setSelectedCell(null)` runs.  On success
the handler refetches (the local rolls become the store's contents) and then
clears the selection. -/
def handleResetFrame (st : ClientState) (gameId playerId frameNumber : Nat)
    (deleteFails : Bool) : ClientState :=
  if deleteFails then st
  else
    let frameDbIndex := frameNumber + 1
    let store' := resetFrameDelete st.store gameId playerId (Int.ofNat frameDbIndex)
    ⟨store', store', none⟩

/-- `handleResetPlayer` of the game page, with the same error model. -/
def handleResetPlayer (st : ClientState) (gameId playerId : Nat)
    (deleteFails : Bool) : ClientState :=
  if deleteFails then st
  else
    let store' := resetPlayerDelete st.store gameId playerId
    ⟨store', store', none⟩

/-- One committed ball fed through the turn sequencer, as `handleRollInput`
does it: the committed slot is the current selection, and `advanceTurn`
replaces the selection. -/
def commitStep (players : List PlayerWithFrames) (sel : SelectedCell) (pins : Nat) :
    Option SelectedCell :=
  advanceTurn players sel.playerId sel.frameIndex sel.rollNumber pins (some sel)

/-- A sequence of committed balls run through the turn sequencer; a cleared
selection stops the run. -/
def runBalls (players : List PlayerWithFrames) :
    Option SelectedCell → List Nat → Option SelectedCell
  | s, [] => s
  | none, _ :: _ => none
  | some sel, p :: ps => runBalls players (commitStep players sel p) ps

/-- Modelled from the spec's enumeration of the 10th-frame roll-index-2
legal-pins rule, for comparison with the code's `getMaxPinsForSelection`:
10 if roll1 = 10; 10 if roll0 ≠ 10 and roll0 + roll1 = 10; `10 − roll1` if
roll0 = 10 and roll1 < 10; otherwise 10. -/
def specMaxPinsFrame9Roll2 (roll0 roll1 : Nat) : Int :=
  if roll1 = 10 then 10
  else if roll0 ≠ 10 ∧ roll0 + roll1 = 10 then 10
  else if roll0 = 10 ∧ roll1 < 10 then 10 - (roll1 : Int)
  else 10

/-! ## Concrete data used by witnesses and counterexamples -/

/-- Ten empty derived frames, with frame 9's rolls replaced by `f9`. -/
def framesWith9 (f9 : List RollEntry) : List FrameData :=
  (List.range 9).map (fun i => ⟨i, [], 0, 0⟩) ++ [⟨9, f9, 0, 0⟩]

/-- The spec's strike-lookahead example: frame0 = [10], frame1 = [7, 2]. -/
def strikeExampleRolls : List Roll :=
  [⟨1, 0, 1, 1, 1, 10⟩, ⟨2, 0, 1, 2, 1, 7⟩, ⟨3, 0, 1, 2, 2, 2⟩]

/-- 10th-frame triple strike: frame-9 rolls [10, 10, 10]. -/
def tripleStrikeRolls : List Roll :=
  [⟨1, 0, 1, 10, 1, 10⟩, ⟨2, 0, 1, 10, 2, 10⟩, ⟨3, 0, 1, 10, 3, 10⟩]

/-- 10th-frame open frame: frame-9 rolls [4, 3]. -/
def openTenthRolls : List Roll :=
  [⟨1, 0, 1, 10, 1, 4⟩, ⟨2, 0, 1, 10, 2, 3⟩]

/-- A malformed 10th frame holding three rolls [3, 3, 3] although no bonus was
earned (the third roll violates the spec's frame-9 invariant). -/
def frame9OpenTriple : List Roll :=
  [⟨1, 0, 1, 10, 1, 3⟩, ⟨2, 0, 1, 10, 2, 3⟩, ⟨3, 0, 1, 10, 3, 3⟩]

/-- A single persisted roll: player 1, frame 1, roll 1, 5 pins. -/
def dupRoll : Roll := ⟨1, 0, 1, 1, 1, 5⟩

/-- A player whose frame 0 records a first ball of 6 pins. -/
def demoSecondBallPlayer : PlayerWithFrames :=
  ⟨1, 0, "A", (List.range 10).map (fun i => ⟨i, if i = 0 then [⟨0, 6⟩] else [], 0, 0⟩), 0⟩

/-- A player whose 10th frame records a strike and then 4 pins. -/
def demoFrame9Player : PlayerWithFrames :=
  ⟨1, 0, "A", framesWith9 [⟨0, 10⟩, ⟨1, 4⟩], 0⟩

/-- A player (id 1) whose cached 10th frame shows an opening strike. -/
def cachedStrikePlayer : PlayerWithFrames := ⟨1, 0, "A", framesWith9 [⟨0, 10⟩], 0⟩

/-- The same player id with a cached 10th frame showing an opening 4. -/
def cachedFourPlayer : PlayerWithFrames := ⟨1, 0, "A", framesWith9 [⟨0, 4⟩], 0⟩

/-- A second player (id 2) with empty frames. -/
def demoPlayerTwo : PlayerWithFrames := ⟨2, 0, "B", framesWith9 [], 0⟩

/-- The frame range the builder can ever bucket: `frame` in 1-10. -/
def frameInRange (r : Roll) : Bool := decide (1 ≤ r.frame) && decide (r.frame ≤ 10)

/-! ## Theorems -/

/-- C3 (code bug): the reconciliation merge is not idempotent for insert
events.  The INSERT handler appends `payload.new` unconditionally, so a
duplicated at-least-once delivery of the insert for a roll id that is already
present duplicates the record: with a single recorded roll of 5 pins in frame
1, the duplicate turns the frame into a 5-5 spare and the player total jumps
from 5 to 10. -/
theorem insert_event_not_idempotent :
    applyRollEvent [dupRoll] (RollEvent.insert dupRoll) = [dupRoll, dupRoll]
    ∧ applyRollEvent [dupRoll] (RollEvent.insert dupRoll) ≠ [dupRoll]
    ∧ playerTotal [dupRoll] 1 = 5
    ∧ playerTotal (applyRollEvent [dupRoll] (RollEvent.insert dupRoll)) 1 = 10
    ∧ frameTotal (applyRollEvent [dupRoll] (RollEvent.insert dupRoll)) 1 0 = 10 := by
  refine ⟨rfl, by decide, by decide, by decide, by decide⟩

/-- C8 (code bug): the turn sequencer's transition is not a function of the
just-committed input alone.  For the input (player 1, frame 9, roll 1, 3
pins), `advanceTurn` reads the 10th frame's recorded first roll back out of
the cached derived `players` state: a cached opening strike yields the bonus
ball (roll index 2) while a cached opening 4 ends the game (selection
cleared), so two states of the local derived roll data with the same player
list produce different next selections. -/
theorem advanceTurn_depends_on_cached_rolls :
    advanceTurn [cachedStrikePlayer] 1 9 1 3 (some ⟨1, 9, 1⟩) = some ⟨1, 9, 2⟩
    ∧ advanceTurn [cachedFourPlayer] 1 9 1 3 (some ⟨1, 9, 1⟩) = none
    ∧ advanceTurn [cachedStrikePlayer] 1 9 1 3 (some ⟨1, 9, 1⟩) ≠
      advanceTurn [cachedFourPlayer] 1 9 1 3 (some ⟨1, 9, 1⟩) := by
  refine ⟨by decide, by decide, by decide⟩

/-- C9 counterexample: when the scoped bulk delete fails, the reset handlers
do not clear the active selection — the `catch` block returns with the
selection untouched, contradicting the claim that the selection is cleared
unconditionally. -/
theorem reset_failure_keeps_selection :
    (handleResetFrame ⟨[dupRoll], [dupRoll], some ⟨1, 2, 0⟩⟩ 0 1 2 true).selectedCell
      = some ⟨1, 2, 0⟩
    ∧ (handleResetFrame ⟨[dupRoll], [dupRoll], some ⟨1, 2, 0⟩⟩ 0 1 2 true).selectedCell
      ≠ none
    ∧ (handleResetPlayer ⟨[dupRoll], [dupRoll], some ⟨1, 2, 0⟩⟩ 0 1 true).selectedCell
      ≠ none := by
  refine ⟨by decide, by decide, by decide⟩

/-- C9 (amended): a reset-frame or reset-player action clears the active
selection to none exactly when the scoped bulk delete succeeds; when the
delete fails with an error the handler reports it and leaves the whole client
state, including the selection, unchanged. -/
theorem reset_clears_selection_iff_delete_succeeds (st : ClientState)
    (g p f : Nat) :
    (handleResetFrame st g p f false).selectedCell = none
    ∧ (handleResetPlayer st g p false).selectedCell = none
    ∧ handleResetFrame st g p f true = st
    ∧ handleResetPlayer st g p true = st :=
  ⟨rfl, rfl, rfl, rfl⟩

/-- C2 counterexample: for a malformed 10th frame holding three recorded
rolls [3, 3, 3] with no bonus earned, the frame builder scores 6 (the first
two rolls), not the sum 9 of all recorded rolls — so the claim is false for
arbitrary roll sets. -/
theorem frame9_recorded_sum_cex :
    frameTotal frame9OpenTriple 1 9 = 6
    ∧ ((frameBucket frame9OpenTriple 1 9).map (·.pins)).sum = 9
    ∧ frameTotal frame9OpenTriple 1 9
      ≠ ((frameBucket frame9OpenTriple 1 9).map (·.pins)).sum := by
  refine ⟨by decide, by decide, by decide⟩

/-- The `i`-th derived frame, for `i < 10`. -/
theorem buildFrames_get? (rolls : List Roll) (pid : Nat) {i : Nat} (hi : i < 10) :
    (buildFrames rolls pid).get? i =
      some ⟨i, frameBucket rolls pid i, frameTotal rolls pid i,
        runningTotalUpTo rolls pid i⟩ := by
  rw [buildFrames, List.get?_map, List.get?_range hi, Option.map_some']

/-- Frame-9 scoring sums the recorded rolls whenever the frame respects the
10th-frame shape invariant. -/
theorem frameTotal9_eq_sum (rolls : List Roll) (pid : Nat)
    (hlen : (pinsListAt rolls pid 9).length ≤ 3)
    (hbonus : (pinsListAt rolls pid 9).length = 3 →
      (pinsListAt rolls pid 9).getD 0 0 = 10 ∨
      (pinsListAt rolls pid 9).getD 0 0 + (pinsListAt rolls pid 9).getD 1 0 = 10) :
    frameTotal rolls pid 9 = (pinsListAt rolls pid 9).sum := by
  rw [frameTotal]
  rcases hps : pinsListAt rolls pid 9 with _ | ⟨a, _ | ⟨b, _ | ⟨c, _ | ⟨d, tl⟩⟩⟩⟩ <;>
    simp_all <;> split_ifs <;> omega

/-- C2 (amended): for every roll set whose derived 10th frame respects the
frame-9 shape invariant (at most 3 recorded rolls, a 3rd only when the frame
opens with a strike or a spare), the frame builder assigns frame 9 a total
equal to the sum of all rolls actually recorded in that frame; moreover the
frame-9 total is a function of the frame-9 rolls alone (no lookahead beyond
the frame). -/
theorem frame9_total_eq_recorded_sum (rolls : List Roll) (pid : Nat) (fr : FrameData)
    (hget : (buildFrames rolls pid).get? 9 = some fr)
    (hlen : fr.rolls.length ≤ 3)
    (hbonus : fr.rolls.length = 3 →
      (fr.rolls.map (·.pins)).getD 0 0 = 10 ∨
      (fr.rolls.map (·.pins)).getD 0 0 + (fr.rolls.map (·.pins)).getD 1 0 = 10) :
    fr.frameTotal = (fr.rolls.map (·.pins)).sum
    ∧ ∀ rolls2 pid2 fr2, (buildFrames rolls2 pid2).get? 9 = some fr2 →
        fr2.rolls = fr.rolls → fr2.frameTotal = fr.frameTotal := by
  have h9 := buildFrames_get? rolls pid (show 9 < 10 by omega)
  rw [hget] at h9
  obtain rfl := Option.some.inj h9
  have e0 : frameTotal rolls pid 9 = (pinsListAt rolls pid 9).sum :=
    frameTotal9_eq_sum rolls pid (by simpa [pinsListAt] using hlen)
      (by simpa [pinsListAt] using hbonus)
  constructor
  · exact e0
  · intro rolls2 pid2 fr2 hget2 hrolls
    have h92 := buildFrames_get? rolls2 pid2 (show 9 < 10 by omega)
    rw [hget2] at h92
    obtain rfl := Option.some.inj h92
    have hb : frameBucket rolls2 pid2 9 = frameBucket rolls pid 9 := by
      simpa using hrolls
    have hps : pinsListAt rolls2 pid2 9 = pinsListAt rolls pid 9 := by
      unfold pinsListAt; rw [hb]
    have e2 : frameTotal rolls2 pid2 9 = (pinsListAt rolls2 pid2 9).sum :=
      frameTotal9_eq_sum rolls2 pid2 (by rw [hps]; simpa [pinsListAt] using hlen)
        (by rw [hps]; simpa [pinsListAt] using hbonus)
    show frameTotal rolls2 pid2 9 = frameTotal rolls pid 9
    rw [e2, hps, e0]

/-- C2 witness: frame-9 rolls [10, 10, 10] total 30, rolls [4, 3] total 7,
and the triple strike satisfies the amended recorded-sum equation. -/
theorem frame9_total_eq_recorded_sum_witness :
    frameTotal tripleStrikeRolls 1 9 = 30
    ∧ frameTotal openTenthRolls 1 9 = 7
    ∧ frameTotal tripleStrikeRolls 1 9 = (pinsListAt tripleStrikeRolls 1 9).sum := by
  refine ⟨by decide, by decide, ?_⟩
  have h := frame9_total_eq_recorded_sum tripleStrikeRolls 1
    ⟨9, frameBucket tripleStrikeRolls 1 9, frameTotal tripleStrikeRolls 1 9,
      runningTotalUpTo tripleStrikeRolls 1 9⟩
    (buildFrames_get? tripleStrikeRolls 1 (by omega)) (by decide) (by decide)
  exact h.1

/-- C1: for every roll set whose derived frame f in 0-8 has a first roll of
10, the frame builder assigns frame f the total 10 plus the sum of the next
two rolls found by scanning forward through the subsequent derived frames
(rolls not yet recorded contribute 0, because the scan simply takes at most
two existing rolls). -/
theorem strike_total_is_ten_plus_next_two (rolls : List Roll) (pid f : Nat)
    (fr : FrameData) (hf : f < 9)
    (hget : (buildFrames rolls pid).get? f = some fr)
    (hstrike : (fr.rolls.map (·.pins)).head? = some 10) :
    fr.frameTotal =
      10 + (((((buildFrames rolls pid).drop (f + 1)).map
        (fun fd => fd.rolls.map (·.pins))).flatten).take 2).sum := by
  have h := buildFrames_get? rolls pid (show f < 10 by omega)
  rw [hget] at h
  obtain rfl := Option.some.inj h
  show frameTotal rolls pid f = _
  have hps : (pinsListAt rolls pid f).head? = some 10 := by
    simpa [pinsListAt] using hstrike
  obtain ⟨ys, hys⟩ := List.head?_eq_some_iff.mp hps
  have hrhs : ((((buildFrames rolls pid).drop (f + 1)).map
      (fun fd => fd.rolls.map (·.pins))).flatten).take 2
      = ((((List.range 10).drop (f + 1)).map (pinsListAt rolls pid)).flatten).take 2 := by
    rw [buildFrames, ← List.map_drop, List.map_map]
    rfl
  have hf9 : f ≠ 9 := by omega
  unfold frameTotal
  rw [hys]
  simp [hf9, lookahead, hrhs]
  rw [buildFrames, List.map_map]
  exact rfl

/-- C1 witness: for frame0 = [10], frame1 = [7, 2] the strike equation holds
concretely, frame 0 totals 19, frame 1 totals 9, and the running totals are
19 and 28. -/
theorem strike_total_witness :
    frameTotal strikeExampleRolls 1 0 =
      10 + (((((buildFrames strikeExampleRolls 1).drop 1).map
        (fun fd => fd.rolls.map (·.pins))).flatten).take 2).sum
    ∧ frameTotal strikeExampleRolls 1 0 = 19
    ∧ frameTotal strikeExampleRolls 1 1 = 9
    ∧ runningTotalUpTo strikeExampleRolls 1 0 = 19
    ∧ runningTotalUpTo strikeExampleRolls 1 1 = 28 := by
  refine ⟨?_, by decide, by decide, by decide, by decide⟩
  exact strike_total_is_ten_plus_next_two strikeExampleRolls 1 0
    ⟨0, frameBucket strikeExampleRolls 1 0, frameTotal strikeExampleRolls 1 0,
      runningTotalUpTo strikeExampleRolls 1 0⟩
    (by omega) (buildFrames_get? strikeExampleRolls 1 (by omega)) (by decide)


theorem filter_filter_of_imp {α : Type _} (l : List α) (p q : α → Bool)
    (h : ∀ a, p a = true → q a = true) :
    (l.filter q).filter p = l.filter p := by
  rw [List.filter_filter]
  refine List.filter_congr ?_
  intro a _
  cases hp : p a with
  | true => simp [h a hp]
  | false => simp

theorem frameBucket_filter_inRange (rolls : List Roll) (pid : Nat) {i : Nat}
    (hi : i < 10) :
    frameBucket (rolls.filter frameInRange) pid i = frameBucket rolls pid i := by
  unfold frameBucket
  rw [filter_filter_of_imp]
  intro r hr
  simp only [Bool.and_eq_true, beq_iff_eq, Int.ofNat_eq_natCast] at hr
  simp only [frameInRange, Bool.and_eq_true, decide_eq_true_eq]
  omega

theorem pinsListAt_filter_inRange (rolls : List Roll) (pid : Nat) {i : Nat}
    (hi : i < 10) :
    pinsListAt (rolls.filter frameInRange) pid i = pinsListAt rolls pid i := by
  unfold pinsListAt
  rw [frameBucket_filter_inRange rolls pid hi]

theorem lookahead_filter_inRange (rolls : List Roll) (pid : Nat) (i k : Nat) :
    lookahead (rolls.filter frameInRange) pid i k = lookahead rolls pid i k := by
  unfold lookahead
  rw [List.map_congr_left (fun j hj =>
    pinsListAt_filter_inRange rolls pid
      (List.mem_range.mp (List.mem_of_mem_drop hj)))]

theorem frameTotal_filter_inRange (rolls : List Roll) (pid : Nat) {i : Nat}
    (hi : i < 10) :
    frameTotal (rolls.filter frameInRange) pid i = frameTotal rolls pid i := by
  unfold frameTotal
  rw [pinsListAt_filter_inRange rolls pid hi, lookahead_filter_inRange rolls pid i 2,
    lookahead_filter_inRange rolls pid i 1]

theorem runningTotalUpTo_filter_inRange (rolls : List Roll) (pid : Nat) {i : Nat}
    (hi : i < 10) :
    runningTotalUpTo (rolls.filter frameInRange) pid i = runningTotalUpTo rolls pid i := by
  unfold runningTotalUpTo
  rw [List.map_congr_left (fun j hj =>
    frameTotal_filter_inRange rolls pid
      (show j < 10 by have := List.mem_range.mp hj; omega))]

/-- C10: the frame builder is total over malformed roll records — it always
returns exactly 10 frames numbered 0 through 9 in order, and every roll whose
frame number lies outside 1-10 is silently ignored: filtering such rolls away
changes neither the derived frames nor the player's total. -/
theorem frame_builder_total_on_malformed (pid : Nat) (rolls : List Roll) :
    (buildFrames rolls pid).length = 10
    ∧ (buildFrames rolls pid).map (·.frameNumber) = List.range 10
    ∧ buildFrames (rolls.filter frameInRange) pid = buildFrames rolls pid
    ∧ playerTotal (rolls.filter frameInRange) pid = playerTotal rolls pid := by
  refine ⟨?_, ?_, ?_, ?_⟩
  · simp [buildFrames]
  · simp only [buildFrames, List.map_map]
    exact List.map_id _
  · unfold buildFrames
    refine List.map_congr_left ?_
    intro j hj
    have hj10 : j < 10 := List.mem_range.mp hj
    rw [frameBucket_filter_inRange rolls pid hj10,
      frameTotal_filter_inRange rolls pid hj10,
      runningTotalUpTo_filter_inRange rolls pid hj10]
  · exact runningTotalUpTo_filter_inRange rolls pid (by omega)

/-- C5: for frame 9 at roll index 2, with recorded rolls roll0 and roll1
each in [0, 10], the legal-pins calculator returns exactly the spec's table:
10 if roll1 = 10; 10 if roll0 is not 10 and roll0 + roll1 = 10; 10 minus
roll1 if roll0 = 10 and roll1 < 10; and 10 in every other case (the fallback
branch). -/
theorem maxPins_frame9_roll2_cases (players : List PlayerWithFrames)
    (pid : Nat) (player : PlayerWithFrames) (fr : FrameData) (e0 e1 : RollEntry)
    (hfind : players.find? (fun p => p.id == pid) = some player)
    (hfr : player.frames.get? 9 = some fr)
    (h0 : fr.rolls.find? (fun r => r.rollNumber == 0) = some e0)
    (h1 : fr.rolls.find? (fun r => r.rollNumber == 1) = some e1)
    (_hb0 : e0.pins ≤ 10) (_hb1 : e1.pins ≤ 10) :
    getMaxPinsForSelection players (some ⟨pid, 9, 2⟩) =
      specMaxPinsFrame9Roll2 e0.pins e1.pins := by
  unfold getMaxPinsForSelection
  simp only [hfind, hfr, Option.map_some', Option.getD_some, h0, h1]
  norm_num [specMaxPinsFrame9Roll2]
  split_ifs <;> omega

/-- C5 witness: with a recorded 10th-frame strike followed by 4 pins, the
roll-index-2 ceiling is the spec value 10 minus 4 = 6. -/
theorem maxPins_frame9_roll2_cases_witness :
    getMaxPinsForSelection [demoFrame9Player] (some ⟨1, 9, 2⟩)
      = specMaxPinsFrame9Roll2 10 4
    ∧ specMaxPinsFrame9Roll2 10 4 = 6 := by
  refine ⟨?_, by decide⟩
  exact maxPins_frame9_roll2_cases [demoFrame9Player] 1 demoFrame9Player
    ⟨9, [⟨0, 10⟩, ⟨1, 4⟩], 0, 0⟩ ⟨0, 10⟩ ⟨1, 4⟩ (by decide) (by decide) (by decide)
    (by decide) (by decide) (by decide)

/-- Frames 0-8, roll index 1 with a recorded non-strike first ball: the
calculator returns exactly `10 - roll0`. -/
theorem maxPins_second_ball (players : List PlayerWithFrames) (pid fi : Nat)
    (player : PlayerWithFrames) (fr : FrameData) (e : RollEntry)
    (hfi : fi < 9)
    (hfind : players.find? (fun p => p.id == pid) = some player)
    (hfr : player.frames.get? fi = some fr)
    (he : fr.rolls.find? (fun r => r.rollNumber == 0) = some e)
    (_hlt : e.pins < 10) :
    getMaxPinsForSelection players (some ⟨pid, fi, 1⟩) = 10 - (e.pins : Int) := by
  have hne : fr.rolls.length ≠ 0 := by
    intro h
    rw [List.length_eq_zero.mp h] at he
    simp at he
  unfold getMaxPinsForSelection
  simp only [hfind, hfr, he]
  norm_num [hfi, hne]

theorem maxPins_bounds (players : List PlayerWithFrames) (sel : Option SelectedCell)
    (hp : ∀ p ∈ players, ∀ fr ∈ p.frames, ∀ e ∈ fr.rolls, e.pins ≤ 10) :
    0 ≤ getMaxPinsForSelection players sel ∧ getMaxPinsForSelection players sel ≤ 10 := by
  unfold getMaxPinsForSelection
  rcases sel with _ | sel
  · norm_num
  rcases hfind : players.find? (fun p => p.id == sel.playerId) with _ | player
  · simp only [hfind]
    norm_num
  have hplayer := List.mem_of_find?_eq_some hfind
  rcases hfr : player.frames.get? sel.frameIndex with _ | fr
  · simp only [hfind, hfr, Option.map_none', Option.getD_none, List.find?_nil]
    split_ifs <;> norm_num
  have hfrmem := List.get?_mem hfr
  have hall : ∀ x ∈ fr.rolls, x.pins ≤ 10 := hp _ hplayer _ hfrmem
  rcases h0 : fr.rolls.find? (fun r => r.rollNumber == 0) with _ | e0 <;>
    rcases h1 : fr.rolls.find? (fun r => r.rollNumber == 1) with _ | e1
  · simp only [hfind, hfr, Option.map_some', Option.getD_some, h0, h1]
    split_ifs <;> omega
  · have he1 := hall _ (List.mem_of_find?_eq_some h1)
    simp only [hfind, hfr, Option.map_some', Option.getD_some, h0, h1]
    split_ifs <;> omega
  · have he0 := hall _ (List.mem_of_find?_eq_some h0)
    simp only [hfind, hfr, Option.map_some', Option.getD_some, h0, h1]
    split_ifs <;> omega
  · have he0 := hall _ (List.mem_of_find?_eq_some h0)
    have he1 := hall _ (List.mem_of_find?_eq_some h1)
    simp only [hfind, hfr, Option.map_some', Option.getD_some, h0, h1]
    split_ifs <;> omega

/-- C4: the legal-pins calculator is sound and total.  For every frame 0-8
whose recorded first roll is below 10, the roll-index-1 ceiling m satisfies
m + roll0 ≤ 10, and a second roll r2 completes a spare exactly when it is
played to the ceiling; and for every selection over players whose recorded
rolls are each in [0, 10], the result is an integer in [0, 10]. -/
theorem maxPins_sound_and_total :
    (∀ (players : List PlayerWithFrames) (pid fi : Nat) (player : PlayerWithFrames)
        (fr : FrameData) (e : RollEntry),
      fi < 9 →
      players.find? (fun p => p.id == pid) = some player →
      player.frames.get? fi = some fr →
      fr.rolls.find? (fun r => r.rollNumber == 0) = some e →
      e.pins < 10 →
      getMaxPinsForSelection players (some ⟨pid, fi, 1⟩) + (e.pins : Int) ≤ 10
      ∧ ∀ r2 : Nat,
          (e.pins + r2 = 10 ↔
            (r2 : Int) = getMaxPinsForSelection players (some ⟨pid, fi, 1⟩)))
  ∧ ∀ (players : List PlayerWithFrames) (sel : Option SelectedCell),
      (∀ p ∈ players, ∀ fr ∈ p.frames, ∀ e ∈ fr.rolls, e.pins ≤ 10) →
      0 ≤ getMaxPinsForSelection players sel
      ∧ getMaxPinsForSelection players sel ≤ 10 := by
  constructor
  · intro players pid fi player fr e hfi hfind hfr he hlt
    have hm := maxPins_second_ball players pid fi player fr e hfi hfind hfr he hlt
    rw [hm]
    refine ⟨by omega, ?_⟩
    intro r2
    omega
  · exact maxPins_bounds

/-- C4 witness: with a recorded first ball of 6 in frame 0 the ceiling
satisfies m + 6 ≤ 10 and 6 + 4 = 10 exactly at the ceiling value 4; and a
frame-9 selection over the same player stays within [0, 10]. -/
theorem maxPins_sound_and_total_witness :
    (getMaxPinsForSelection [demoSecondBallPlayer] (some ⟨1, 0, 1⟩) + (6 : Int) ≤ 10
      ∧ ((6 : Nat) + 4 = 10 ↔
          ((4 : Nat) : Int) = getMaxPinsForSelection [demoSecondBallPlayer] (some ⟨1, 0, 1⟩)))
    ∧ (0 ≤ getMaxPinsForSelection [demoSecondBallPlayer] (some ⟨1, 9, 2⟩)
      ∧ getMaxPinsForSelection [demoSecondBallPlayer] (some ⟨1, 9, 2⟩) ≤ 10) := by
  constructor
  · have h := maxPins_sound_and_total.1 [demoSecondBallPlayer] 1 0 demoSecondBallPlayer
      ⟨0, [⟨0, 6⟩], 0, 0⟩ ⟨0, 6⟩ (by decide) (by decide) (by decide) (by decide) (by decide)
    exact ⟨h.1, h.2 4⟩
  · exact maxPins_sound_and_total.2 [demoSecondBallPlayer] (some ⟨1, 9, 2⟩) (by decide)

theorem setSelection_eq_some (players : List PlayerWithFrames) (idx fi rn : Nat)
    (c : SelectedCell) (h : setSelection players idx fi rn = some c) :
    c.frameIndex = fi ∧ c.rollNumber = rn := by
  unfold setSelection at h
  rcases hg : players.get? idx with _ | p <;> rw [hg] at h
  · exact absurd h (by simp)
  · obtain rfl := Option.some.inj h
    exact ⟨rfl, rfl⟩

theorem endTurnFrame9_eq_some (players : List PlayerWithFrames) (pIndex fi : Nat)
    (c : SelectedCell) (h : endTurnFrame9 players pIndex fi = some c) :
    c.frameIndex = fi ∧ c.rollNumber = 0 := by
  simp only [endTurnFrame9] at h
  split_ifs at h
  exact setSelection_eq_some _ _ _ _ _ h

/-- C6: the turn sequencer never leaves frame 9.  A committed roll at frame
9, roll index 2 always ends the turn (the next selection, if any, is a fresh
ball at frame 9, roll 0); no committed frame-9 roll with roll index at most 2
ever solicits a roll index above 2 (no 4th ball) or a frame other than 9; no
committed roll at any frame at most 9 ever selects a frame above 9; and
whenever the last player's frame-9 turn ends — at roll index 2, or at roll
index 1 when no bonus was earned (the cached first roll is not a strike and
does not complete a spare with the committed pins) — the machine transitions
to Idle (selection cleared). -/
theorem advanceTurn_frame9_terminal :
    (∀ (players : List PlayerWithFrames) (pid pins : Nat)
        (prev : Option SelectedCell) (c : SelectedCell),
      (players.findIdx? (fun p => p.id == pid)).isSome →
      advanceTurn players pid 9 2 pins prev = some c →
      c.frameIndex = 9 ∧ c.rollNumber = 0)
  ∧ (∀ (players : List PlayerWithFrames) (pid r pins : Nat)
        (prev : Option SelectedCell) (c : SelectedCell),
      (players.findIdx? (fun p => p.id == pid)).isSome → r ≤ 2 →
      advanceTurn players pid 9 r pins prev = some c →
      c.rollNumber ≤ 2 ∧ c.frameIndex = 9)
  ∧ (∀ (players : List PlayerWithFrames) (pid f r pins : Nat)
        (prev : Option SelectedCell) (c : SelectedCell),
      (players.findIdx? (fun p => p.id == pid)).isSome → f ≤ 9 →
      advanceTurn players pid f r pins prev = some c →
      c.frameIndex ≤ 9)
  ∧ (∀ (players : List PlayerWithFrames) (pid pins : Nat)
        (prev : Option SelectedCell),
      players.findIdx? (fun p => p.id == pid) = some (players.length - 1) →
      advanceTurn players pid 9 2 pins prev = none)
  ∧ (∀ (players : List PlayerWithFrames) (pid pins : Nat)
        (prev : Option SelectedCell),
      players.findIdx? (fun p => p.id == pid) = some (players.length - 1) →
      cachedFrame9Roll0 players (players.length - 1) ≠ 10 →
      cachedFrame9Roll0 players (players.length - 1) + pins ≠ 10 →
      advanceTurn players pid 9 1 pins prev = none) := by
  refine ⟨?_, ?_, ?_, ?_, ?_⟩
  · intro players pid pins prev c hfound h
    obtain ⟨i, hi⟩ := Option.isSome_iff_exists.mp hfound
    simp only [advanceTurn, hi] at h
    norm_num at h
    exact endTurnFrame9_eq_some _ _ _ _ h
  · intro players pid r pins prev c hfound hr h
    obtain ⟨i, hi⟩ := Option.isSome_iff_exists.mp hfound
    simp only [advanceTurn, hi] at h
    norm_num at h
    interval_cases r <;> norm_num at h <;>
      (try split_ifs at h) <;>
      first
        | (obtain ⟨h1, h2⟩ := setSelection_eq_some _ _ _ _ _ h; omega)
        | (obtain ⟨h1, h2⟩ := endTurnFrame9_eq_some _ _ _ _ h; omega)
  · intro players pid f r pins prev c hfound hf h
    obtain ⟨i, hi⟩ := Option.isSome_iff_exists.mp hfound
    simp only [advanceTurn, hi] at h
    split_ifs at h <;>
      first
        | (obtain ⟨h1, h2⟩ := setSelection_eq_some _ _ _ _ _ h; omega)
        | (obtain ⟨h1, h2⟩ := endTurnFrame9_eq_some _ _ _ _ h; omega)
  · intro players pid pins prev hfind
    have hpos : 0 < players.length := by
      rcases players with _ | ⟨q, rest⟩
      · simp [List.findIdx?] at hfind
      · simp
    simp only [advanceTurn, hfind]
    norm_num
    simp only [endTurnFrame9]
    have hmod : (players.length - 1 + 1) % players.length = 0 := by
      rw [Nat.sub_add_cancel hpos, Nat.mod_self]
    simp [hmod]
  · intro players pid pins prev hfind h10 hsum
    have hpos : 0 < players.length := by
      rcases players with _ | ⟨q, rest⟩
      · simp [List.findIdx?] at hfind
      · simp
    simp only [advanceTurn, hfind]
    norm_num
    rw [if_neg (not_or.mpr ⟨h10, hsum⟩)]
    simp only [endTurnFrame9]
    have hmod : (players.length - 1 + 1) % players.length = 0 := by
      rw [Nat.sub_add_cancel hpos, Nat.mod_self]
    simp [hmod]

/-- C6 witness: with two players, player 1's frame-9 roll-2 commit hands a
fresh frame-9 ball to player 2; with one player the same commit clears the
selection (Idle), and so does a roll-index-1 commit of 3 pins on a recorded
open 4 (no bonus earned). -/
theorem advanceTurn_frame9_terminal_witness :
    ((⟨2, 9, 0⟩ : SelectedCell).frameIndex = 9
      ∧ (⟨2, 9, 0⟩ : SelectedCell).rollNumber = 0)
    ∧ advanceTurn [cachedStrikePlayer] 1 9 2 5 (some ⟨1, 9, 2⟩) = none
    ∧ advanceTurn [cachedFourPlayer] 1 9 1 3 (some ⟨1, 9, 1⟩) = none := by
  refine ⟨?_, ?_, ?_⟩
  · exact advanceTurn_frame9_terminal.1 [cachedStrikePlayer, demoPlayerTwo] 1 5
      (some ⟨1, 9, 2⟩) ⟨2, 9, 0⟩ (by decide) (by decide)
  · exact advanceTurn_frame9_terminal.2.2.2.1 [cachedStrikePlayer] 1 5
      (some ⟨1, 9, 2⟩) (by decide)
  · exact advanceTurn_frame9_terminal.2.2.2.2 [cachedFourPlayer] 1 3
      (some ⟨1, 9, 1⟩) (by decide) (by decide) (by decide)

theorem findIdx?_id_get_aux :
    ∀ (l : List PlayerWithFrames), (l.map (·.id)).Nodup →
      ∀ (i : Nat) (hi : i < l.length) (s : Nat),
        List.findIdx? (fun p => p.id == (l.get ⟨i, hi⟩).id) l s = some (s + i) := by
  intro l
  induction l with
  | nil => intro _ i hi; simp at hi
  | cons q rest ih =>
    intro hnd i hi s
    rw [List.map_cons, List.nodup_cons] at hnd
    match i with
    | 0 =>
      rw [List.findIdx?_cons]
      simp
    | Nat.succ j =>
      have hj : j < rest.length := by simpa using hi
      have htm : (rest.get ⟨j, hj⟩).id ∈ rest.map (·.id) :=
        List.mem_map_of_mem _ (List.get_mem rest j hj)
      have hne : (q.id == ((q :: rest).get ⟨j + 1, hi⟩).id) = false := by
        have : ((q :: rest).get ⟨j + 1, hi⟩) = rest.get ⟨j, hj⟩ := rfl
        rw [this, beq_eq_false_iff_ne]
        intro he
        exact hnd.1 (he ▸ htm)
      rw [List.findIdx?_cons, hne]
      simp only [Bool.false_eq_true, if_false]
      have := ih hnd.2 j hj (s + 1)
      have harith : s + 1 + j = s + (j + 1) := by omega
      rw [harith] at this
      exact this

theorem findIdx?_id_get (players : List PlayerWithFrames)
    (hnd : (players.map (·.id)).Nodup) (i : Nat) (hi : i < players.length) :
    players.findIdx? (fun p => p.id == (players.get ⟨i, hi⟩).id) = some i := by
  simpa using findIdx?_id_get_aux players hnd i hi 0

theorem advanceTurn_first_ball (players : List PlayerWithFrames)
    (hnd : (players.map (·.id)).Nodup) (i : Nat) (hi : i < players.length)
    (f a : Nat) (prev : Option SelectedCell) (hf : f < 9) (ha : a ≠ 10) :
    advanceTurn players (players.get ⟨i, hi⟩).id f 0 a prev
      = some ⟨(players.get ⟨i, hi⟩).id, f, 1⟩ := by
  simp only [advanceTurn, findIdx?_id_get players hnd i hi]
  rw [if_pos hf, if_neg (by simp [ha] : ¬(True ∧ a = 10 ∨ 0 + 1 > 1))]
  unfold setSelection
  rw [List.get?_eq_get hi]

theorem advanceTurn_second_ball (players : List PlayerWithFrames)
    (hnd : (players.map (·.id)).Nodup) (i : Nat) (hi : i < players.length)
    (f b : Nat) (prev : Option SelectedCell) (hf : f < 9) :
    advanceTurn players (players.get ⟨i, hi⟩).id f 1 b prev
      = some ⟨(players.get ⟨(i + 1) % players.length,
            Nat.mod_lt _ (by omega)⟩).id,
          if i = players.length - 1 then f + 1 else f, 0⟩ := by
  have hlen : 0 < players.length := by omega
  have hnp : (i + 1) % players.length < players.length := Nat.mod_lt _ hlen
  have hc : ((i + 1) % players.length = 0 ∧ i = players.length - 1)
      ↔ i = players.length - 1 := by
    constructor
    · exact And.right
    · intro h
      refine ⟨?_, h⟩
      rw [h, Nat.sub_add_cancel hlen, Nat.mod_self]
  simp only [advanceTurn, findIdx?_id_get players hnd i hi]
  rw [if_pos hf, if_pos (by omega : (1 = 0 ∧ b = 10) ∨ 1 + 1 > 1)]
  unfold setSelection
  rw [List.get?_eq_get hnp, if_congr hc rfl rfl]

theorem runBalls_turns (players : List PlayerWithFrames)
    (hnd : (players.map (·.id)).Nodup) (f : Nat) (hf : f < 9) :
    ∀ (turns : List (Nat × Nat)) (i : Nat) (hi : i < players.length),
      turns.length = players.length - i →
      (∀ t ∈ turns, t.1 ≠ 10) →
      runBalls players (some ⟨(players.get ⟨i, hi⟩).id, f, 0⟩)
        (turns.flatMap (fun t => [t.1, t.2]))
      = some ⟨(players.get ⟨0, by omega⟩).id, f + 1, 0⟩ := by
  intro turns
  induction turns with
  | nil =>
    intro i hi hlen hns
    simp only [List.length_nil] at hlen
    omega
  | cons t rest ih =>
    intro i hi hlen hns
    have hlen0 : 0 < players.length := by omega
    have ht1 : t.1 ≠ 10 := hns t (List.mem_cons_self t rest)
    rw [List.flatMap_cons]
    show runBalls players (some ⟨(players.get ⟨i, hi⟩).id, f, 0⟩)
      (t.1 :: t.2 :: rest.flatMap (fun t => [t.1, t.2])) = _
    rw [runBalls, show commitStep players ⟨(players.get ⟨i, hi⟩).id, f, 0⟩ t.1
        = advanceTurn players (players.get ⟨i, hi⟩).id f 0 t.1
            (some ⟨(players.get ⟨i, hi⟩).id, f, 0⟩) from rfl,
      advanceTurn_first_ball players hnd i hi f t.1 _ hf ht1]
    rw [runBalls, show commitStep players ⟨(players.get ⟨i, hi⟩).id, f, 1⟩ t.2
        = advanceTurn players (players.get ⟨i, hi⟩).id f 1 t.2
            (some ⟨(players.get ⟨i, hi⟩).id, f, 1⟩) from rfl,
      advanceTurn_second_ball players hnd i hi f t.2 _ hf]
    by_cases hlast : i = players.length - 1
    · have hrest : rest = [] := by
        rw [← List.length_eq_zero]
        simp only [List.length_cons] at hlen
        omega
      have hmod : (i + 1) % players.length = 0 := by
        rw [hlast, Nat.sub_add_cancel hlen0, Nat.mod_self]
      subst hrest
      simp only [List.flatMap_nil, hmod, if_pos hlast]
      rw [runBalls]
    · have hi1 : i + 1 < players.length := by omega
      have hmod : (i + 1) % players.length = i + 1 := Nat.mod_eq_of_lt hi1
      simp only [hmod, if_neg hlast]
      have hrlen : rest.length = players.length - (i + 1) := by
        simp only [List.length_cons] at hlen
        omega
      exact ih (i + 1) hi1 hrlen (fun u hu => hns u (List.mem_cons_of_mem t hu))

/-- C7: turn cycling without strikes.  For every player list with distinct
ids (count N at least 1) and every frame f in 0-8: a first ball below 10
keeps the player with roll index 1; the second ball always ends the turn,
advancing the player index modulo N with roll index reset to 0 and the frame
index advancing to f + 1 exactly on the wrap back to player 0; and N
strike-free turns — exactly 2N committed rolls — return the machine from
(player 0, f, 0) to (player 0, f + 1, 0). -/
theorem turn_cycling (players : List PlayerWithFrames)
    (hnd : (players.map (·.id)).Nodup) (hN : 0 < players.length)
    (f : Nat) (hf : f < 9) :
    (∀ (i : Nat) (hi : i < players.length) (a : Nat) (prev : Option SelectedCell),
      a ≠ 10 →
      advanceTurn players (players.get ⟨i, hi⟩).id f 0 a prev
        = some ⟨(players.get ⟨i, hi⟩).id, f, 1⟩)
  ∧ (∀ (i : Nat) (hi : i < players.length) (b : Nat) (prev : Option SelectedCell),
      advanceTurn players (players.get ⟨i, hi⟩).id f 1 b prev
        = some ⟨(players.get ⟨(i + 1) % players.length, Nat.mod_lt _ hN⟩).id,
            if i = players.length - 1 then f + 1 else f, 0⟩)
  ∧ (∀ turns : List (Nat × Nat),
      turns.length = players.length →
      (∀ t ∈ turns, t.1 ≠ 10) →
      runBalls players (some ⟨(players.get ⟨0, hN⟩).id, f, 0⟩)
        (turns.flatMap (fun t => [t.1, t.2]))
      = some ⟨(players.get ⟨0, hN⟩).id, f + 1, 0⟩) := by
  refine ⟨?_, ?_, ?_⟩
  · intro i hi a prev ha
    exact advanceTurn_first_ball players hnd i hi f a prev hf ha
  · intro i hi b prev
    exact advanceTurn_second_ball players hnd i hi f b prev hf
  · intro turns hlen hns
    exact runBalls_turns players hnd f hf turns 0 hN (by omega) hns

/-- C7 witness: with 2 players at frame 0, the 4 committed balls 3, 4, 5, 2
return the selection to player 1 (index 0) at frame 1, roll 0. -/
theorem turn_cycling_witness :
    runBalls [cachedStrikePlayer, demoPlayerTwo] (some ⟨1, 0, 0⟩) [3, 4, 5, 2]
      = some ⟨1, 1, 0⟩ := by
  have h := (turn_cycling [cachedStrikePlayer, demoPlayerTwo] (by decide) (by decide)
    0 (by decide)).2.2 [(3, 4), (5, 2)] (by decide) (by decide)
  simpa using h
